import Mathlib

/-!
Shallow embedding of the `unet` userspace network stack (Rust) and proofs
about its checksum, Ethernet framing, ARP, IPv4 and UDP components.

Machine integers are modelled as `Nat` with explicit masking (`% 2^w`,
`&&&`, `^^^`) exactly where the Rust source casts or wraps.  Fallible or
panicking code is modelled with `Option`/`Except`: a `none` result marks a
Rust panic (e.g. an out-of-bounds slice index), an `Except.error` a
returned `Err`.  Output actions (frames handed to a link driver) are
modelled as explicitly returned `SentFrame` values.
-/

namespace Unet

/-! ### Checksum (src/utils.rs)

`calculate_checksum(data, sum)` sums the big-endian 16-bit words of
`data.chunks(2)` into a `u32`, folds the carries into the low 16 bits and
returns the bitwise complement truncated to `u16`.

Note the source indexes `x[1]` on every chunk: a trailing chunk of a
single byte (odd-length `data`) panics, which the model renders as `none`.
-/

/-- Sum of `u16::from_be_bytes([x[0], x[1]])` over `data.chunks(2)`;
`none` models the `x[1]` index panic on a trailing 1-byte chunk. -/
def sumChunksBE : List Nat → Option Nat
  | [] => some 0
  | [_] => none
  | a :: b :: rest => (sumChunksBE rest).map (fun s => a * 256 + b + s)

/-- One bounded run of the carry-fold loop
`while sum >> 16 != 0 { sum = (sum & 0xffff) + (sum >> 16) }`.
The loop body strictly decreases `sum`, so running it with `fuel = sum`
steps reaches the fixed point; the fuel only makes the recursion
structural (kernel-reducible), see `foldCarry_eq`. -/
def foldCarryGo : Nat → Nat → Nat
  | 0, s => s
  | fuel + 1, s =>
      if s >>> 16 ≠ 0 then foldCarryGo fuel ((s &&& 0xffff) + (s >>> 16)) else s

/-- The carry-fold loop of `calculate_checksum`. -/
def foldCarry (sum : Nat) : Nat := foldCarryGo sum sum

/-- Source `calculate_checksum` from src/utils.rs.  The `u32` accumulation is a
single `% 2^32` (mod distributes over the additions); `!sum as u16` is
`(sum ^^^ 0xffffffff) % 65536`. -/
def calculate_checksum (data : List Nat) (sum : Nat) : Option Nat :=
  (sumChunksBE data).map (fun s =>
    let t := foldCarry ((sum + s) % 4294967296)
    (t ^^^ 0xffffffff) % 65536)

theorem and_ffff_eq_mod (x : Nat) : x &&& 0xffff = x % 65536 := by
  have := Nat.and_pow_two_sub_one_eq_mod x 16
  norm_num at this
  exact this

theorem foldCarryGo_of_done (s : Nat) (h : s >>> 16 = 0) (fuel : Nat) :
    foldCarryGo fuel s = s := by
  cases fuel <;> simp [foldCarryGo, h]

theorem foldCarryGo_norm (fuel : Nat) : ∀ s ≤ fuel, foldCarryGo fuel s = foldCarry s := by
  induction fuel using Nat.strong_induction_on with
  | _ fuel ih =>
    intro s hs
    match fuel with
    | 0 =>
        have : s = 0 := by omega
        subst this
        rfl
    | m + 1 =>
        by_cases hc : s >>> 16 = 0
        · rw [foldCarryGo_of_done s hc, foldCarry, foldCarryGo_of_done s hc]
        · have hbig : 65536 ≤ s := by
            rw [Nat.shiftRight_eq_div_pow] at hc
            by_contra hlt
            exact hc (by omega)
          have hdec : (s &&& 0xffff) + (s >>> 16) < s := by
            rw [and_ffff_eq_mod, Nat.shiftRight_eq_div_pow]
            have : s / 2 ^ 16 ≠ 0 := by rwa [Nat.shiftRight_eq_div_pow] at hc
            omega
          obtain ⟨n, rfl⟩ : ∃ n, s = n + 1 := ⟨s - 1, by omega⟩
          show foldCarryGo (m + 1) (n + 1) = foldCarryGo (n + 1) (n + 1)
          simp only [foldCarryGo, if_pos hc]
          rw [ih m (by omega) _ (by omega), ih n (by omega) _ (by omega)]

theorem foldCarry_eq (sum : Nat) :
    foldCarry sum =
      if sum >>> 16 ≠ 0 then foldCarry ((sum &&& 0xffff) + (sum >>> 16)) else sum := by
  by_cases hc : sum >>> 16 = 0
  · simp [foldCarry, foldCarryGo_of_done sum hc, hc]
  · have hbig : 65536 ≤ sum := by
      rw [Nat.shiftRight_eq_div_pow] at hc
      by_contra hlt
      exact hc (by omega)
    have hdec : (sum &&& 0xffff) + (sum >>> 16) < sum := by
      rw [and_ffff_eq_mod, Nat.shiftRight_eq_div_pow]
      have : sum / 2 ^ 16 ≠ 0 := by rwa [Nat.shiftRight_eq_div_pow] at hc
      omega
    obtain ⟨n, rfl⟩ : ∃ n, sum = n + 1 := ⟨sum - 1, by omega⟩
    rw [if_pos hc]
    show foldCarryGo (n + 1) (n + 1) = _
    simp only [foldCarryGo, if_pos hc]
    exact foldCarryGo_norm n _ (by omega)

theorem foldCarry_lt (s : Nat) : foldCarry s < 65536 := by
  induction s using Nat.strong_induction_on with
  | _ s ih =>
    rw [foldCarry_eq]
    split
    · rename_i h
      apply ih
      rw [Nat.shiftRight_eq_div_pow] at *
      rw [and_ffff_eq_mod]
      omega
    · rename_i h
      rw [not_not, Nat.shiftRight_eq_div_pow] at h
      omega

theorem foldCarry_mod (s : Nat) : foldCarry s % 65535 = s % 65535 := by
  induction s using Nat.strong_induction_on with
  | _ s ih =>
    rw [foldCarry_eq]
    split
    · rename_i h
      rw [Nat.shiftRight_eq_div_pow] at *
      rw [and_ffff_eq_mod]
      have hlt : s % 65536 + s / 65536 < s := by omega
      rw [ih _ hlt]
      conv_rhs => rw [show s = 65536 * (s / 65536) + s % 65536 by omega]
      omega
    · rfl

theorem foldCarry_pos (s : Nat) (hs : 0 < s) : 0 < foldCarry s := by
  induction s using Nat.strong_induction_on with
  | _ s ih =>
    rw [foldCarry_eq]
    split
    · rename_i h
      rw [Nat.shiftRight_eq_div_pow] at *
      rw [and_ffff_eq_mod]
      apply ih <;> omega
    · exact hs

/-- A positive multiple of `0xffff` folds to exactly `0xffff`. -/
theorem foldCarry_of_mod_eq_zero (s : Nat) (hs : 0 < s) (h : s % 65535 = 0) :
    foldCarry s = 65535 := by
  have h1 := foldCarry_lt s
  have h2 := foldCarry_mod s
  have h3 := foldCarry_pos s hs
  omega

/-- For even-length byte data the chunked sum is defined and bounded by
`0xffff` per word. -/
theorem sumChunksBE_even (data : List Nat) (he : data.length % 2 = 0)
    (hb : ∀ b ∈ data, b < 256) :
    ∃ s, sumChunksBE data = some s ∧ s ≤ (data.length / 2) * 65535 := by
  induction data using sumChunksBE.induct with
  | case1 => exact ⟨0, rfl, by simp⟩
  | case2 a => simp at he
  | case3 a b rest ih =>
    have ha : a < 256 := hb a (by simp)
    have hbb : b < 256 := hb b (by simp)
    obtain ⟨s, hs, hsle⟩ := ih (by simp at he; omega) (fun x hx => hb x (by simp [hx]))
    refine ⟨a * 256 + b + s, by simp [sumChunksBE, hs], ?_⟩
    simp only [List.length_cons]
    have : (rest.length + 1 + 1) / 2 = rest.length / 2 + 1 := by omega
    rw [this]
    nlinarith

theorem testBit_false_of_lt_65536 (f i : Nat) (hf : f < 65536) (hi : 16 ≤ i) :
    f.testBit i = false := by
  apply Nat.testBit_lt_two_pow
  calc f < 65536 := hf
  _ = 2 ^ 16 := by norm_num
  _ ≤ 2 ^ i := Nat.pow_le_pow_right (by norm_num) hi

theorem xor_ffffffff_mod (f : Nat) (hf : f < 65536) :
    (f ^^^ 0xffffffff) % 65536 = 65535 - f := by
  have h1 : (f ^^^ 0xffffffff) % 65536 = f ^^^ 0xffff := by
    apply Nat.eq_of_testBit_eq
    intro i
    have e32 : (0xffffffff : Nat) = 2 ^ 32 - 1 := by norm_num
    have e16 : (0xffff : Nat) = 2 ^ 16 - 1 := by norm_num
    rw [e32, e16, show (65536 : Nat) = 2 ^ 16 by norm_num]
    simp only [Nat.testBit_mod_two_pow, Nat.testBit_xor, Nat.testBit_two_pow_sub_one]
    by_cases hi : i < 16
    · simp [hi, show i < 32 by omega]
    · simp [hi, testBit_false_of_lt_65536 f i hf (by omega)]
  rw [h1]
  apply Nat.eq_of_testBit_eq
  intro i
  have hsub : (65535 : Nat) - f = 2 ^ 16 - (f + 1) := by omega
  have e16 : (0xffff : Nat) = 2 ^ 16 - 1 := by norm_num
  rw [hsub, e16, Nat.testBit_two_pow_sub_succ (by exact_mod_cast hf)]
  simp only [Nat.testBit_xor, Nat.testBit_two_pow_sub_one]
  by_cases hi : i < 16
  · simp [hi]
  · simp [hi, testBit_false_of_lt_65536 f i hf (by omega)]

/-- The checksum involution of spec §8.1, proved for the inputs on which
the source does not panic: even-length byte data up to `2^15` bytes. -/
theorem calculate_checksum_involution_even (data : List Nat)
    (he : data.length % 2 = 0) (hb : ∀ b ∈ data, b < 256)
    (hl : data.length ≤ 2 ^ 15) :
    ∃ c, calculate_checksum data 0 = some c ∧ calculate_checksum data c = some 0 := by
  obtain ⟨S, hS, hSle⟩ := sumChunksBE_even data he hb
  have hSlt : S < 2 ^ 30 := by
    have : data.length / 2 ≤ 2 ^ 14 := by omega
    calc S ≤ (data.length / 2) * 65535 := hSle
    _ ≤ 2 ^ 14 * 65535 := by exact Nat.mul_le_mul_right _ this
    _ < 2 ^ 30 := by norm_num
  have hf := foldCarry_lt S
  have hfm := foldCarry_mod S
  set f := foldCarry S with hfdef
  have hm1 : (0 + S) % 4294967296 = S := by omega
  have hc : calculate_checksum data 0 = some (65535 - f) := by
    simp only [calculate_checksum, hS, Option.map_some', hm1, ← hfdef,
      xor_ffffffff_mod f hf]
  refine ⟨65535 - f, hc, ?_⟩
  have hpos : 0 < 65535 - f + S := by
    rcases Nat.eq_zero_or_pos S with h0 | h0
    · have : f = 0 := by
        rw [hfdef, h0, foldCarry_eq]
        norm_num
      omega
    · omega
  have hdvd : (65535 - f + S) % 65535 = 0 := by omega
  have hm2 : (65535 - f + S) % 4294967296 = 65535 - f + S := by omega
  simp only [calculate_checksum, hS, Option.map_some', hm2,
    foldCarry_of_mod_eq_zero _ hpos hdvd]
  decide

/-! ### Wire-format helpers

Big-endian serialisation (`u16::to_be_bytes`, `u32::to_be_bytes`, with the
`as u8` casts written as `% 256`) and deserialisation
(`u16::from_be_bytes`, `u32::from_be_bytes` applied to bytes). -/

def u16be (x : Nat) : List Nat := [(x >>> 8) % 256, x % 256]

def u32be (x : Nat) : List Nat :=
  [(x >>> 24) % 256, (x >>> 16) % 256, (x >>> 8) % 256, x % 256]

def readU16 (a b : Nat) : Nat := a * 256 + b

def readU32 (a b c d : Nat) : Nat := ((a * 256 + b) * 256 + c) * 256 + d

/-! ### Devices (src/devices.rs)

`NetDevice` keeps the fields the verified paths read: type tag, MTU,
flags and the 14-byte hardware address.  The operation vtable, driver
handle, IRQ binding, queue and interface list play no part in the claims;
a successful `(ops.transmit)` call is modelled by the returned
`SentFrame` record. -/

inductive NetDeviceType
  | null
  | loopback
  | ethernet
deriving DecidableEq

def NET_DEVICE_FLAG_UP : Nat := 0x0001

def NET_DEVICE_FLAG_NEED_ARP : Nat := 0x0100

inductive NetProtocolType
  | ipv4
  | arpTy
deriving DecidableEq

/-- Source `NetProtocolType as u16` (EtherType values). -/
def NetProtocolType.toNat : NetProtocolType → Nat
  | .ipv4 => 0x0800
  | .arpTy => 0x0806

structure NetDevice where
  ty : NetDeviceType
  mtu : Nat
  flags : Nat
  hw_addr : List Nat
deriving DecidableEq

def NetDevice.is_up (d : NetDevice) : Bool := d.flags &&& NET_DEVICE_FLAG_UP != 0

/-- A frame handed to a link driver: payload, EtherType tag, destination
hardware address. -/
structure SentFrame where
  data : List Nat
  ty : NetProtocolType
  dst : List Nat
deriving DecidableEq

/-- Source `NetDevice::send` (src/devices.rs): refuse when the device is down or
the payload exceeds the MTU, otherwise delegate to the driver; the
delegated transmission is the returned frame. -/
def NetDevice.send (d : NetDevice) (data : List Nat) (ty : NetProtocolType)
    (dst : List Nat) : Except String SentFrame :=
  if !d.is_up then .error "device not opened"
  else if data.length > d.mtu then .error "too long packet"
  else .ok ⟨data, ty, dst⟩

/-! ### Ethernet framing (src/devices/ethernet.rs) -/

def MAC_ADDRESS_BROADCAST : List Nat := List.replicate 6 0xff

def ETHERNET_MIN_SIZE : Nat := 60

def ETHERNET_HEADER_SIZE : Nat := 14

namespace ethernet

/-- The frame assembled by `ethernet::send`: 14-byte header
(`dst(6) | src(6) | type(2)`), payload, then zero padding computed from
`data.len() < ETHERNET_MIN_SIZE`. -/
def send_frame (device : NetDevice) (ty : Nat) (data : List Nat)
    (dst : List Nat) : List Nat :=
  let header := dst ++ device.hw_addr.take 6 ++ u16be ty
  let frame := header ++ data
  let len_padding :=
    if data.length < ETHERNET_MIN_SIZE then ETHERNET_MIN_SIZE - data.length else 0
  frame ++ List.replicate len_padding 0

end ethernet

/-! ### IPv4 (src/protocols/ipv4.rs) -/

def Ipv4Address_ANY : Nat := 0x00000000

def Ipv4Address_BROADCAST : Nat := 0xffffffff

inductive TransportProtocolNumber
  | icmp
  | udpPr
deriving DecidableEq

def TransportProtocolNumber.toNat : TransportProtocolNumber → Nat
  | .icmp => 1
  | .udpPr => 17

def TransportProtocolNumber.tryFrom : Nat → Option TransportProtocolNumber
  | 1 => some .icmp
  | 17 => some .udpPr
  | _ => none

structure NetInterfaceFamilyIpv4 : Type where
deriving DecidableEq

structure Ipv4Interface where
  unicast : Nat
  netmask : Nat
  broadcast : Nat
  device : Option NetDevice
deriving DecidableEq

/-- Source `Ipv4Interface::new`: the computed broadcast is
`unicast.0 & 0xffffff00 | !netmask.0 & 0xff` (the `!` is the 32-bit
complement); the weak device back-reference is `Some`. -/
def Ipv4Interface.new (unicast netmask : Nat) (device : NetDevice) : Ipv4Interface :=
  { unicast := unicast
    netmask := netmask
    broadcast := (unicast &&& 0xffffff00) ||| ((netmask ^^^ 0xffffffff) &&& 0xff)
    device := some device }

structure IpRoute where
  network : Nat
  netmask : Nat
  interface : Ipv4Interface
  next_hop : Option Nat
deriving DecidableEq

/-- Source `dst & route.netmask == route.network` — the match test of
`Ipv4Router::lookup`. -/
def routeMatches (dst : Nat) (r : IpRoute) : Bool := dst &&& r.netmask == r.network

/-- The candidate loop of `Ipv4Router::lookup`: take the route when it
matches and `candidate.is_none() || route.netmask.0 > candidate.netmask.0`
(the short-circuit disjunction written as a case split on the
candidate). -/
def lookupGo (dst : Nat) : List IpRoute → Option IpRoute → Option IpRoute
  | [], cand => cand
  | r :: rest, none =>
      if routeMatches dst r then lookupGo dst rest (some r)
      else lookupGo dst rest none
  | r :: rest, some c =>
      if routeMatches dst r && decide (c.netmask < r.netmask) then
        lookupGo dst rest (some r)
      else lookupGo dst rest (some c)

def Ipv4Router.lookup (routes : List IpRoute) (dst : Nat) : Option IpRoute :=
  lookupGo dst routes none

/-- Source `Ipv4Router::register`: push a route with the interface's netmask and
no next hop at the back. -/
def Ipv4Router.register (routes : List IpRoute) (network : Nat)
    (interface : Ipv4Interface) : List IpRoute :=
  routes ++ [⟨network, interface.netmask, interface, none⟩]

/-- Source `Ipv4Router::register_default`: push the all-zero route with a
gateway at the front. -/
def Ipv4Router.register_default (routes : List IpRoute)
    (interface : Ipv4Interface) (gateway : Nat) : List IpRoute :=
  ⟨Ipv4Address_ANY, Ipv4Address_ANY, interface, some gateway⟩ :: routes

structure Ipv4Header where
  version_header_length : Nat
  tos : Nat
  total_length : Nat
  identification : Nat
  flags_fragment_offset : Nat
  ttl : Nat
  protocol : TransportProtocolNumber
  header_checksum : Nat
  src : Nat
  dst : Nat
deriving DecidableEq

def Ipv4Header.version (h : Ipv4Header) : Nat := h.version_header_length >>> 4

def Ipv4Header.header_length (h : Ipv4Header) : Nat :=
  (h.version_header_length &&& 0x0f) * 4

def Ipv4Header.flags (h : Ipv4Header) : Nat :=
  (h.flags_fragment_offset >>> 13) % 256

def Ipv4Header.fragment_offset (h : Ipv4Header) : Nat :=
  h.flags_fragment_offset &&& 0x1fff

def Ipv4Header.to_bytes (h : Ipv4Header) : List Nat :=
  [h.version_header_length, h.tos,
   (h.total_length >>> 8) % 256, h.total_length % 256,
   (h.identification >>> 8) % 256, h.identification % 256,
   (h.flags_fragment_offset >>> 8) % 256, h.flags_fragment_offset % 256,
   h.ttl, h.protocol.toNat,
   (h.header_checksum >>> 8) % 256, h.header_checksum % 256,
   (h.src >>> 24) % 256, (h.src >>> 16) % 256, (h.src >>> 8) % 256, h.src % 256,
   (h.dst >>> 24) % 256, (h.dst >>> 16) % 256, (h.dst >>> 8) % 256, h.dst % 256]

/-- Source `TryFrom<&[u8]> for Ipv4Header`: the source indexes bytes 0–19 of the
slice (panicking below 20 bytes, ignoring any tail) and fails on an
unknown protocol number; `none` covers both the panic and the `Err`. -/
def Ipv4Header.parse : List Nat → Option Ipv4Header
  | b0 :: b1 :: b2 :: b3 :: b4 :: b5 :: b6 :: b7 :: b8 :: b9 :: b10 :: b11 ::
      b12 :: b13 :: b14 :: b15 :: b16 :: b17 :: b18 :: b19 :: _ =>
      (TransportProtocolNumber.tryFrom b9).map fun protocol =>
        { version_header_length := b0
          tos := b1
          total_length := readU16 b2 b3
          identification := readU16 b4 b5
          flags_fragment_offset := readU16 b6 b7
          ttl := b8
          protocol := protocol
          header_checksum := readU16 b10 b11
          src := readU32 b12 b13 b14 b15
          dst := readU32 b16 b17 b18 b19 }
  | _ => none

/-- Source `Ipv4Header::validate` including `validate_checksum` (the seedless
`calculate_checksum(&data)` call is the checksum with seed 0, per
spec §4.g). -/
def Ipv4Header.validate (h : Ipv4Header) : Except String Unit :=
  if h.version ≠ 4 then .error "invalid version"
  else if h.header_length < 20 then .error "ipv4 header too short"
  else if 60 ≤ h.header_length then .error "ipv4 header too long"
  else if 0 < h.flags &&& 0x1 ∨ 0 < h.fragment_offset &&& 0x1fff then
    .error "fragmentation is not supported"
  else if calculate_checksum h.to_bytes 0 = some 0 then .ok ()
  else .error "invalid checksum"

/-! ### ARP (src/protocols/arp.rs)

`Instant` timestamps are modelled as a `Nat` clock `now`;
`entry.timestamp.elapsed()` is `now - entry.timestamp`. -/

def ARP_HARDWARE_TYPE_ETHERNET : Nat := 1

def ARP_OPERATION_REQUEST : Nat := 1

def ARP_OPERATION_REPLY : Nat := 2

def ARP_CACHE_TIMEOUT : Nat := 600

inductive ArpCacheState
  | incomplete
  | resolved (mac : List Nat)
deriving DecidableEq

structure ArpCacheEntry where
  state : ArpCacheState
  timestamp : Nat
deriving DecidableEq

/-- The `HashMap<Ipv4Address, ArpCacheEntry>` as an association list
(`insert` replaces the mapping for a key). -/
abbrev ArpCache := List (Nat × ArpCacheEntry)

def ArpCache.find? (c : ArpCache) (ip : Nat) : Option ArpCacheEntry :=
  (List.find? (fun p => p.1 == ip) c).map Prod.snd

/-- Source `ArpCache::insert`: store the state with the current timestamp,
replacing any previous entry for `ip`. -/
def ArpCache.insert (c : ArpCache) (ip : Nat) (state : ArpCacheState)
    (now : Nat) : ArpCache :=
  (ip, ⟨state, now⟩) :: c.filter (fun p => p.1 != ip)

/-- Source `ArpCache::get`: `Some` only for a `Resolved` entry whose age is
below `ARP_CACHE_TIMEOUT`; `Incomplete` and stale entries are a miss. -/
def ArpCache.get (c : ArpCache) (ip : Nat) (now : Nat) : Option ArpCacheState :=
  match c.find? ip with
  | some entry =>
      match entry.state with
      | .resolved mac =>
          if now - entry.timestamp < ARP_CACHE_TIMEOUT then some (.resolved mac)
          else none
      | .incomplete => none
  | none => none

namespace arp

/-- Source `ArpMessage::to_bytes` for the message built by `arp::send`:
header (`htype=1, ptype=0x0800, hlen=6, plen=4, oper`), SHA = the
device's MAC, SPA = the interface unicast, THA/TPA = the target. -/
def messageBytes (device : NetDevice) (interface : Ipv4Interface)
    (oper : Nat) (target_hw : List Nat) (target : Nat) : List Nat :=
  u16be ARP_HARDWARE_TYPE_ETHERNET ++ u16be 0x0800 ++ [6, 4] ++ u16be oper
    ++ device.hw_addr.take 6 ++ u32be interface.unicast
    ++ target_hw ++ u32be target

/-- Source `arp::send`: build the message and hand it to `device.send` with the
ARP EtherType and `target_hw_addr` as the link destination. -/
def send (device : NetDevice) (interface : Ipv4Interface) (oper : Nat)
    (target_hw : List Nat) (target : Nat) : Except String SentFrame :=
  device.send (messageBytes device interface oper target_hw target) .arpTy target_hw

/-- Source `arp::request`: an ARP request broadcast at the link. -/
def request (device : NetDevice) (interface : Ipv4Interface)
    (target : Nat) : Except String SentFrame :=
  send device interface ARP_OPERATION_REQUEST MAC_ADDRESS_BROADCAST target

/-- Source `arp::reply`. -/
def reply (device : NetDevice) (interface : Ipv4Interface)
    (target_hw : List Nat) (target : Nat) : Except String SentFrame :=
  send device interface ARP_OPERATION_REPLY target_hw target

/-- Outcome of `resolve_arp`: the cache after the call (mutated in place
in the source), the frames transmitted, and the returned `Result`. -/
structure ResolveOutcome where
  cache : ArpCache
  sent : List SentFrame
  result : Except String ArpCacheState

/-- Source `arp::resolve_arp` (src/protocols/arp.rs lines 250-269).  Note the
cache insertion happens before the request transmission, so a failed
send leaves the `Incomplete` entry behind. -/
def resolve_arp (device : NetDevice) (interface : Ipv4Interface)
    (arp_cache : ArpCache) (target : Nat) (now : Nat) : ResolveOutcome :=
  if device.ty ≠ .ethernet then
    ⟨arp_cache, [], .error "device type not supported"⟩
  else
    match arp_cache.get target now with
    | none =>
        let cache := arp_cache.insert target .incomplete now
        match request device interface target with
        | .error e => ⟨cache, [], .error e⟩
        | .ok f => ⟨cache, [f], .ok .incomplete⟩
    | some state =>
        if state = .incomplete then
          match request device interface target with
          | .error e => ⟨arp_cache, [], .error e⟩
          | .ok f => ⟨arp_cache, [f], .ok state⟩
        else ⟨arp_cache, [], .ok state⟩

/-- Source `arp::recv` (src/protocols/arp.rs lines 205-247).  Returns the cache
after the call, the transmitted frames, and the `Result`; `none` models
the slice-index panics on truncated input. -/
def recv (cache : ArpCache) (interface : Ipv4Interface) (data : List Nat)
    (now : Nat) : Option (ArpCache × List SentFrame × Except String Unit) :=
  if data.length < 8 then none
  else
    let htype := readU16 (data.getD 0 0) (data.getD 1 0)
    let ptype := readU16 (data.getD 2 0) (data.getD 3 0)
    let hlen := data.getD 4 0
    let plen := data.getD 5 0
    if htype ≠ ARP_HARDWARE_TYPE_ETHERNET then
      some (cache, [], .error "unknown hardware type")
    else if ptype ≠ 0x0800 then some (cache, [], .error "unknown protocol type")
    else if hlen ≠ 6 then some (cache, [], .error "unknown hardware address length")
    else if plen ≠ 4 then some (cache, [], .error "unknown protocol address length")
    else if data.length < 28 then none
    else
      let sha := (data.drop 8).take 6
      let spa := readU32 (data.getD 14 0) (data.getD 15 0) (data.getD 16 0) (data.getD 17 0)
      let tpa := readU32 (data.getD 24 0) (data.getD 25 0) (data.getD 26 0) (data.getD 27 0)
      match interface.device with
      | none => some (cache, [], .error "device not found")
      | some device =>
          if interface.unicast = tpa then
            let cache2 := cache.insert spa (.resolved sha) now
            match reply device interface sha spa with
            | .error e => some (cache2, [], .error e)
            | .ok f => some (cache2, [f], .ok ())
          else some (cache, [], .ok ())

end arp

/-! ### UDP (src/transport/udp.rs) -/

def UDP_PCB_LENGTH : Nat := 16

structure Endpoint where
  address : Nat
  port : Nat
deriving DecidableEq

inductive PcbState
  | Open
  | Closing
deriving DecidableEq

structure UdpPcbQueueEntry where
  foreign : Endpoint
  data : List Nat
deriving DecidableEq

/-- A UDP PCB; `localEndpoint` is the source's `local` field (a Lean
keyword). -/
structure UdpPcb where
  state : PcbState
  localEndpoint : Endpoint
  queue : List UdpPcbQueueEntry
deriving DecidableEq

/-- Source `UdpPcb::can_be_bound`. -/
def UdpPcb.can_be_bound (pcb : UdpPcb) (address : Nat) (port : Nat) : Bool :=
  pcb.state == .Open
    && (pcb.localEndpoint.address == Ipv4Address_ANY
        || address == Ipv4Address_ANY
        || pcb.localEndpoint.address == address)
    && pcb.localEndpoint.port == port

structure UdpHeader where
  src_port : Nat
  dst_port : Nat
  length : Nat
  checksum : Nat
deriving DecidableEq

/-- Source `From<&[u8]> for UdpHeader` on the first eight bytes. -/
def UdpHeader.parse (data : List Nat) : UdpHeader :=
  { src_port := readU16 (data.getD 0 0) (data.getD 1 0)
    dst_port := readU16 (data.getD 2 0) (data.getD 3 0)
    length := readU16 (data.getD 4 0) (data.getD 5 0)
    checksum := readU16 (data.getD 6 0) (data.getD 7 0) }

/-- Source `PseudoHeader::to_bytes` for `(src, dst, 0, proto=17, length)`;
`Ipv4Address::to_bytes` is network byte order (spec §6, inverse of
`From<&[u8; 4]>`). -/
def pseudoHeaderBytes (src dst length : Nat) : List Nat :=
  u32be src ++ u32be dst ++ [0, 17] ++ u16be length

namespace udp

/-- Source `UdpContext::select_pcb`: the first PCB for which `can_be_bound`
holds. -/
def select_pcb (pcbs : List (Option UdpPcb)) (address : Nat)
    (port : Nat) : Option UdpPcb :=
  pcbs.findSome? fun o =>
    match o with
    | some pcb => if pcb.can_be_bound address port then some pcb else none
    | none => none

/-- The slot scan of `udp::bind`: occupy the first free slot with a fresh
`Open` PCB and return its index. -/
def bindGo (endpoint : Endpoint) : List (Option UdpPcb) → Nat →
    List (Option UdpPcb) × Option Nat
  | [], _ => ([], none)
  | none :: rest, i => (some ⟨.Open, endpoint, []⟩ :: rest, some i)
  | some p :: rest, i =>
      let r := bindGo endpoint rest (i + 1)
      (some p :: r.1, r.2)

/-- Source `udp::bind` (src/transport/udp.rs lines 139-165). -/
def bind (pcbs : List (Option UdpPcb)) (endpoint : Endpoint) :
    List (Option UdpPcb) × Option Nat :=
  if (select_pcb pcbs endpoint.address endpoint.port).isSome then (pcbs, none)
  else bindGo endpoint pcbs 0

/-- Source `UdpContext::select_pcb_mut` followed by the `queue.push_back`:
append the entry to the queue of the first matching PCB; `none` when no
PCB matches. -/
def pushToPcb (pcbs : List (Option UdpPcb)) (address : Nat) (port : Nat)
    (entry : UdpPcbQueueEntry) : Option (List (Option UdpPcb)) :=
  match pcbs with
  | [] => none
  | none :: rest => (pushToPcb rest address port entry).map (none :: ·)
  | some pcb :: rest =>
      if pcb.can_be_bound address port then
        some (some { pcb with queue := pcb.queue ++ [entry] } :: rest)
      else (pushToPcb rest address port entry).map (some pcb :: ·)

/-- Source `udp::recv` (src/transport/udp.rs lines 218-278).  The outer `none`
models the `calculate_checksum` panic on odd-length data; note the source
builds the queued entry's foreign endpoint from `dst`, not `src`. -/
def recv (pcbs : List (Option UdpPcb)) (data : List Nat) (src dst : Nat) :
    Option (Except String (List (Option UdpPcb))) :=
  if data.length < 8 then some (.error "udp packet too short")
  else
    match calculate_checksum data 0 with
    | none => none
    | some sum =>
        let header := UdpHeader.parse (data.take 8)
        let payload := data.drop 8
        if data.length ≠ header.length then
          some (.error "invalid udp packet length")
        else
          match calculate_checksum (pseudoHeaderBytes src dst header.length)
              (sum ^^^ 0xffff) with
          | none => none
          | some sum2 =>
              if sum2 ≠ 0 then some (.error "invalid udp checksum")
              else
                match pushToPcb pcbs dst header.dst_port
                    ⟨⟨dst, header.src_port⟩, payload⟩ with
                | none => some (.error "udp socket not found")
                | some pcbs2 => some (.ok pcbs2)

end udp

/-! ### Sample data used by witnesses and counterexamples -/

/-- Source `NetDevice::null()` (src/devices/null.rs): type Null, MTU 1500,
flags 0, zero hardware address. -/
def nullDevice : NetDevice := ⟨.null, 1500, 0, List.replicate 14 0⟩

/-- An opened TAP Ethernet device (`NetDevice::ethernet_tap` after
`open`): Ethernet type, MTU 1500, UP and NEED_ARP flags, a sample MAC
`02:00:00:00:00:01` in the 14-byte `hw_addr`. -/
def sampleEthDevice : NetDevice :=
  ⟨.ethernet, 1500, NET_DEVICE_FLAG_UP ||| NET_DEVICE_FLAG_NEED_ARP,
   [0x02, 0, 0, 0, 0, 1] ++ List.replicate 8 0⟩

/-- The same Ethernet device before `open` (still DOWN). -/
def downEthDevice : NetDevice :=
  ⟨.ethernet, 1500, NET_DEVICE_FLAG_NEED_ARP,
   [0x02, 0, 0, 0, 0, 1] ++ List.replicate 8 0⟩

/-- Interface 192.0.2.2/24 on the sample Ethernet device. -/
def sampleIface : Ipv4Interface :=
  Ipv4Interface.new 0xC0000202 0xffffff00 sampleEthDevice

/-! ### C1 — checksum involution -/

/-- C1: the claim extends the involution to odd-length data, asserting
the final byte is zero-padded; the source instead indexes `x[1]` on the
trailing one-byte chunk and panics, so `calculate_checksum` is undefined
(models as `none`) already at the one-byte input `[0x00]`, and the
claimed involution value `0` is never produced there. -/
theorem calculate_checksum_odd_length_panics :
    calculate_checksum [0] 0 = none ∧ calculate_checksum [0] (0xffff) = none :=
  ⟨rfl, rfl⟩

/-! ### C2 — interface broadcast address -/

/-- C2 counterexample: for unicast 10.1.2.3 and netmask 255.0.0.0 the
constructed broadcast is 10.1.2.255 (`0x0A0102FF`), while the claimed
`unicast | !netmask` is 10.255.255.255 (`0x0AFFFFFF`). -/
theorem broadcast_counterexample :
    (Ipv4Interface.new 0x0A010203 0xFF000000 nullDevice).broadcast = 0x0A0102FF ∧
    ((0x0A010203 : Nat) ||| (0xFF000000 ^^^ 0xffffffff)) = 0x0AFFFFFF ∧
    (Ipv4Interface.new 0x0A010203 0xFF000000 nullDevice).broadcast ≠
      ((0x0A010203 : Nat) ||| (0xFF000000 ^^^ 0xffffffff)) := by
  refine ⟨by decide, by decide, by decide⟩

theorem testBit_false_of_lt_pow (u n i : Nat) (hu : u < 2 ^ n) (hi : n ≤ i) :
    u.testBit i = false :=
  Nat.testBit_lt_two_pow
    (Nat.lt_of_lt_of_le hu (Nat.pow_le_pow_right (by norm_num) hi))

/-- C2 amended: `Ipv4Interface::new` computes the broadcast as
`(unicast & 0xffffff00) | (!netmask & 0xff)` — only the final octet's
host bits are set.  The claimed `unicast | !netmask` is recovered
exactly for the /24 netmask 255.255.255.0. -/
theorem broadcast_last_octet (u m : Nat) (d : NetDevice) (hu : u < 2 ^ 32) :
    (Ipv4Interface.new u m d).broadcast =
      (u &&& 0xffffff00) ||| ((m ^^^ 0xffffffff) &&& 0xff) ∧
    (Ipv4Interface.new u 0xffffff00 d).broadcast =
      u ||| ((0xffffff00 : Nat) ^^^ 0xffffffff) := by
  refine ⟨rfl, ?_⟩
  show (u &&& 0xffffff00) ||| (((0xffffff00 : Nat) ^^^ 0xffffffff) &&& 0xff) = _
  have e1 : (((0xffffff00 : Nat) ^^^ 0xffffffff) &&& 0xff) = 0xff := by decide
  have e2 : ((0xffffff00 : Nat) ^^^ 0xffffffff) = 0xff := by decide
  rw [e1, e2]
  have e3 : (0xff : Nat) = 2 ^ 8 - 1 := by norm_num
  have e4 : (0xffffff00 : Nat) = (2 ^ 32 - 1) ^^^ (2 ^ 8 - 1) := by decide
  apply Nat.eq_of_testBit_eq
  intro i
  rw [e3, e4]
  simp only [Nat.testBit_or, Nat.testBit_and, Nat.testBit_xor,
    Nat.testBit_two_pow_sub_one]
  by_cases h8 : i < 8
  · simp [h8]
  · by_cases h32 : i < 32
    · simp [h8, h32]
    · simp [h8, h32, testBit_false_of_lt_pow u 32 i hu (by omega)]

theorem broadcast_last_octet_witness :
    (Ipv4Interface.new 0x0A010203 0xFF000000 nullDevice).broadcast =
      ((0x0A010203 : Nat) &&& 0xffffff00) ||| (((0xFF000000 : Nat) ^^^ 0xffffffff) &&& 0xff) ∧
    (Ipv4Interface.new 0x0A010203 0xffffff00 nullDevice).broadcast =
      (0x0A010203 : Nat) ||| ((0xffffff00 : Nat) ^^^ 0xffffffff) :=
  broadcast_last_octet 0x0A010203 0xFF000000 nullDevice (by norm_num)

/-! ### C3 — Ethernet padding -/

/-- C3 counterexample: a 46-byte payload, for which the claim promises an
unpadded 60-byte frame, is sent as a 74-byte frame: the source pads
whenever `data.len() < 60`, comparing the payload alone against
`ETHERNET_MIN_SIZE`. -/
theorem ethernet_pads_46_byte_payload :
    (ethernet.send_frame sampleEthDevice 0x0800 (List.replicate 46 0xab)
        (List.replicate 6 0x01)).length = 74 ∧
    (74 : Nat) ≠ 14 + 46 := by
  refine ⟨by decide, by decide⟩

/-- C3 amended: the frame is the 14-byte header, the payload, then zero
padding until the payload alone (not header+payload) reaches 60 bytes;
the frame length is `14 + max data.len 60`, and no padding is appended
exactly when `60 ≤ data.len`. -/
theorem ethernet_send_frame_spec (device : NetDevice) (ty : Nat)
    (data dst : List Nat) (hdst : dst.length = 6)
    (hhw : 6 ≤ device.hw_addr.length) :
    ethernet.send_frame device ty data dst =
      (dst ++ device.hw_addr.take 6 ++ u16be ty) ++ data ++
        List.replicate (ETHERNET_MIN_SIZE - min data.length ETHERNET_MIN_SIZE) 0 ∧
    (ethernet.send_frame device ty data dst).length = 14 + max data.length 60 ∧
    (60 ≤ data.length → ethernet.send_frame device ty data dst =
      (dst ++ device.hw_addr.take 6 ++ u16be ty) ++ data) := by
  refine ⟨?_, ?_, ?_⟩
  · have hcount : (ETHERNET_MIN_SIZE - min data.length ETHERNET_MIN_SIZE)
        = if data.length < ETHERNET_MIN_SIZE then ETHERNET_MIN_SIZE - data.length else 0 := by
      unfold ETHERNET_MIN_SIZE
      rcases Nat.lt_or_ge data.length 60 with h | h
      · rw [if_pos h, min_eq_left (le_of_lt h)]
      · rw [if_neg (by omega), min_eq_right h]
    rw [hcount]
    simp only [ethernet.send_frame, List.append_assoc]
  · unfold ethernet.send_frame ETHERNET_MIN_SIZE
    have h6 : min 6 device.hw_addr.length = 6 := min_eq_left hhw
    by_cases h : data.length < 60
    · have hm : max data.length 60 = 60 := max_eq_right (le_of_lt h)
      simp [h, List.length_append, List.length_take, u16be, hdst, h6, hm]
      omega
    · have hm : max data.length 60 = data.length := max_eq_left (by omega)
      simp [h, List.length_append, List.length_take, u16be, hdst, h6, hm]
      omega
  · intro h
    unfold ethernet.send_frame ETHERNET_MIN_SIZE
    simp only [if_neg (by omega : ¬ data.length < 60), List.replicate_zero,
      List.append_nil, List.append_assoc]

theorem ethernet_send_frame_spec_witness :
    (ethernet.send_frame sampleEthDevice 0x0806 (List.replicate 64 0x11)
        (List.replicate 6 0x01)).length = 14 + max 64 60 ∧
    (60 ≤ (List.replicate 64 0x11 : List Nat).length →
      ethernet.send_frame sampleEthDevice 0x0806 (List.replicate 64 0x11)
          (List.replicate 6 0x01) =
        (List.replicate 6 0x01 ++ sampleEthDevice.hw_addr.take 6 ++ u16be 0x0806) ++
          List.replicate 64 0x11) :=
  ⟨(ethernet_send_frame_spec sampleEthDevice 0x0806 (List.replicate 64 0x11)
      (List.replicate 6 0x01) (by decide) (by decide)).2.1,
   (ethernet_send_frame_spec sampleEthDevice 0x0806 (List.replicate 64 0x11)
      (List.replicate 6 0x01) (by decide) (by decide)).2.2⟩

/-! ### C4 — UDP receive queues the wrong foreign address -/

/-- C4: `udp::recv` builds the queued entry's foreign endpoint from the
IPv4 *destination* (`address: dst`), not the source.  At this accepted
datagram from 127.0.0.1:8000 to 127.0.0.2:8001 (length and checksum
valid, PCB bound to (127.0.0.2, 8001)), the queued entry carries foreign
address 127.0.0.2 — the local destination — with the source ≠
destination. -/
theorem udp_recv_foreign_address_is_dst :
    udp.recv (some ⟨.Open, ⟨0x7f000002, 8001⟩, []⟩ :: List.replicate 15 none)
        [0x1F, 0x40, 0x1F, 0x41, 0x00, 0x0A, 0x5A, 0xEC, 0x68, 0x69]
        0x7f000001 0x7f000002 =
      some (.ok (some ⟨.Open, ⟨0x7f000002, 8001⟩,
        [⟨⟨0x7f000002, 8000⟩, [0x68, 0x69]⟩]⟩ :: List.replicate 15 none)) ∧
    (0x7f000002 : Nat) ≠ 0x7f000001 :=
  ⟨rfl, by decide⟩

/-- A device that is UP accepts any payload within the MTU. -/
theorem NetDevice.send_ok (d : NetDevice) (data : List Nat)
    (ty : NetProtocolType) (dst : List Nat) (hup : d.is_up = true)
    (hlen : data.length ≤ d.mtu) :
    d.send data ty dst = .ok ⟨data, ty, dst⟩ := by
  simp [NetDevice.send, hup, show ¬ (data.length > d.mtu) from by omega]

/-! ### C5 — resolve_arp state machine -/

/-- C5: `resolve_arp` fails on non-Ethernet devices; on a cache miss
(`get` returns `None` for absent, `Incomplete`, or stale `Resolved`
entries alike) it inserts `Incomplete`, transmits one broadcast ARP
request and returns `Incomplete`; on a fresh `Resolved` hit it returns
the entry without transmitting.  `get` never surfaces an `Incomplete`
state, so the claim's retransmit clause is subsumed by the miss path. -/
theorem resolve_arp_spec (device : NetDevice) (iface : Ipv4Interface)
    (cache : ArpCache) (target now : Nat) :
    (device.ty ≠ .ethernet →
      arp.resolve_arp device iface cache target now =
        ⟨cache, [], .error "device type not supported"⟩) ∧
    (device.ty = .ethernet → cache.get target now = none →
      device.is_up = true → 28 ≤ device.mtu →
      arp.resolve_arp device iface cache target now =
        ⟨cache.insert target .incomplete now,
         [⟨arp.messageBytes device iface ARP_OPERATION_REQUEST
             MAC_ADDRESS_BROADCAST target, .arpTy, MAC_ADDRESS_BROADCAST⟩],
         .ok .incomplete⟩) ∧
    (∀ mac, device.ty = .ethernet →
      cache.get target now = some (.resolved mac) →
      arp.resolve_arp device iface cache target now =
        ⟨cache, [], .ok (.resolved mac)⟩) ∧
    (cache.get target now ≠ some .incomplete) ∧
    (cache.find? target = none → cache.get target now = none) ∧
    (∀ t, cache.find? target = some ⟨.incomplete, t⟩ →
      cache.get target now = none) ∧
    (∀ mac t, cache.find? target = some ⟨.resolved mac, t⟩ →
      ARP_CACHE_TIMEOUT ≤ now - t → cache.get target now = none) := by
  refine ⟨?_, ?_, ?_, ?_, ?_, ?_, ?_⟩
  · intro hty
    simp [arp.resolve_arp, hty]
  · intro hty hmiss hup hmtu
    have hmsg : (arp.messageBytes device iface ARP_OPERATION_REQUEST
        MAC_ADDRESS_BROADCAST target).length ≤ 28 := by
      simp [arp.messageBytes, u16be, u32be, MAC_ADDRESS_BROADCAST,
        List.length_append, List.length_take]
    have hnot : ¬ ((arp.messageBytes device iface ARP_OPERATION_REQUEST
        MAC_ADDRESS_BROADCAST target).length > device.mtu) := by omega
    simp [arp.resolve_arp, hty, hmiss, arp.request, arp.send, NetDevice.send,
      hup, hnot]
  · intro mac hty hres
    simp [arp.resolve_arp, hty, hres]
  · intro hcontra
    unfold ArpCache.get at hcontra
    rcases hf : cache.find? target with _ | ⟨st, ts⟩ <;> rw [hf] at hcontra
    · simp at hcontra
    · rcases st with _ | mac
      · simp at hcontra
      · simp only [] at hcontra
        split at hcontra <;> simp_all
  · intro hf
    simp [ArpCache.get, hf]
  · intro t hf
    simp [ArpCache.get, hf]
  · intro mac t hf hstale
    simp [ArpCache.get, hf]
    omega

theorem resolve_arp_spec_witness :
    arp.resolve_arp sampleEthDevice sampleIface [] 0xC0000201 0 =
      ⟨ArpCache.insert [] 0xC0000201 .incomplete 0,
       [⟨arp.messageBytes sampleEthDevice sampleIface ARP_OPERATION_REQUEST
           MAC_ADDRESS_BROADCAST 0xC0000201, .arpTy, MAC_ADDRESS_BROADCAST⟩],
       .ok .incomplete⟩ :=
  (resolve_arp_spec sampleEthDevice sampleIface [] 0xC0000201 0).2.1
    rfl rfl (by decide) (by decide)

/-! ### C9 — arp::recv replies regardless of the oper field -/

/-- C9: whenever the parsed target protocol address equals the interface
unicast and the fixed header is Ethernet/IPv4, `arp::recv` inserts
`spa -> Resolved(sha)` and emits exactly one reply frame whose THA and
link destination are the sender's SHA — with no hypothesis on the
message's `oper` bytes (`data[6]`, `data[7]`), so an incoming ARP reply
is processed exactly like a request. -/
theorem arp_recv_replies_to_any_oper (cache : ArpCache) (iface : Ipv4Interface)
    (device : NetDevice) (data : List Nat) (now : Nat)
    (hlen : data.length = 28)
    (hhtype : readU16 (data.getD 0 0) (data.getD 1 0) = ARP_HARDWARE_TYPE_ETHERNET)
    (hptype : readU16 (data.getD 2 0) (data.getD 3 0) = 0x0800)
    (hhlen : data.getD 4 0 = 6)
    (hplen : data.getD 5 0 = 4)
    (hdev : iface.device = some device)
    (htpa : iface.unicast =
      readU32 (data.getD 24 0) (data.getD 25 0) (data.getD 26 0) (data.getD 27 0))
    (hup : device.is_up = true)
    (hmtu : 28 ≤ device.mtu) :
    arp.recv cache iface data now =
      some (cache.insert
              (readU32 (data.getD 14 0) (data.getD 15 0) (data.getD 16 0) (data.getD 17 0))
              (.resolved ((data.drop 8).take 6)) now,
            [⟨arp.messageBytes device iface ARP_OPERATION_REPLY ((data.drop 8).take 6)
                (readU32 (data.getD 14 0) (data.getD 15 0) (data.getD 16 0) (data.getD 17 0)),
              .arpTy, (data.drop 8).take 6⟩],
            .ok ()) := by
  have hsha : ((data.drop 8).take 6).length = 6 := by
    simp [List.length_take, List.length_drop, hlen]
  have hmsg : (arp.messageBytes device iface ARP_OPERATION_REPLY
      ((data.drop 8).take 6)
      (readU32 (data.getD 14 0) (data.getD 15 0) (data.getD 16 0) (data.getD 17 0))).length
        ≤ 28 := by
    simp [arp.messageBytes, u16be, u32be, List.length_append, List.length_take, hsha]
  have hreply : arp.reply device iface ((data.drop 8).take 6)
      (readU32 (data.getD 14 0) (data.getD 15 0) (data.getD 16 0) (data.getD 17 0)) =
      .ok ⟨arp.messageBytes device iface ARP_OPERATION_REPLY ((data.drop 8).take 6)
            (readU32 (data.getD 14 0) (data.getD 15 0) (data.getD 16 0) (data.getD 17 0)),
          .arpTy, (data.drop 8).take 6⟩ := by
    unfold arp.reply arp.send
    exact NetDevice.send_ok device _ _ _ hup (by omega)
  simp only [arp.recv, hlen, hhtype, hptype, hhlen, hplen, hdev, ← htpa, hreply]
  norm_num

theorem arp_recv_replies_witness :
    arp.recv [] sampleIface
      [0, 1, 8, 0, 6, 4, 0, 2,
       0xaa, 0xaa, 0xaa, 0xaa, 0xaa, 0xaa, 0xc0, 0, 2, 1,
       0, 0, 0, 0, 0, 0, 0xc0, 0, 2, 2] 9 =
      some (ArpCache.insert [] 0xC0000201
              (.resolved [0xaa, 0xaa, 0xaa, 0xaa, 0xaa, 0xaa]) 9,
            [⟨arp.messageBytes sampleEthDevice sampleIface ARP_OPERATION_REPLY
                [0xaa, 0xaa, 0xaa, 0xaa, 0xaa, 0xaa] 0xC0000201,
              .arpTy, [0xaa, 0xaa, 0xaa, 0xaa, 0xaa, 0xaa]⟩],
            .ok ()) :=
  arp_recv_replies_to_any_oper [] sampleIface sampleEthDevice
    [0, 1, 8, 0, 6, 4, 0, 2,
     0xaa, 0xaa, 0xaa, 0xaa, 0xaa, 0xaa, 0xc0, 0, 2, 1,
     0, 0, 0, 0, 0, 0, 0xc0, 0, 2, 2] 9
    rfl rfl rfl rfl rfl rfl (by decide) (by decide) (by decide)

/-! ### C10 — resolve_arp mutates the cache even when the send fails -/

/-- C10: with no cache entry for the target and a device that is DOWN
(so `NetDevice::send` fails before any transmission), `resolve_arp`
returns the error but the cache already holds a fresh `Incomplete` entry
for the target. -/
theorem resolve_arp_error_leaves_incomplete (device : NetDevice)
    (iface : Ipv4Interface) (cache : ArpCache) (target now : Nat)
    (hty : device.ty = .ethernet)
    (hmiss : cache.find? target = none)
    (hdown : device.is_up = false) :
    arp.resolve_arp device iface cache target now =
      ⟨cache.insert target .incomplete now, [], .error "device not opened"⟩ ∧
    (cache.insert target .incomplete now).find? target =
      some ⟨.incomplete, now⟩ := by
  have hget : cache.get target now = none := by simp [ArpCache.get, hmiss]
  constructor
  · simp [arp.resolve_arp, hty, hget, arp.request, arp.send, NetDevice.send, hdown]
  · simp [ArpCache.insert, ArpCache.find?, List.find?]

theorem resolve_arp_error_witness :
    arp.resolve_arp downEthDevice sampleIface [] 5 7 =
      ⟨ArpCache.insert [] 5 .incomplete 7, [], .error "device not opened"⟩ ∧
    (ArpCache.insert [] 5 .incomplete 7).find? 5 = some ⟨.incomplete, 7⟩ :=
  resolve_arp_error_leaves_incomplete downEthDevice sampleIface [] 5 7
    rfl rfl (by decide)

/-! ### C6 — longest-prefix-match route lookup -/

theorem lookupGo_eq_none (dst : Nat) (l : List IpRoute) :
    ∀ cand, lookupGo dst l cand = none ↔
      cand = none ∧ ∀ r ∈ l, routeMatches dst r = false := by
  induction l with
  | nil => intro cand; simp [lookupGo]
  | cons a rest ih =>
    intro cand
    cases cand with
    | none =>
        by_cases hm : routeMatches dst a
        · rw [lookupGo, if_pos hm, ih (some a)]
          simp [hm]
        · rw [lookupGo, if_neg hm, ih none]
          constructor
          · rintro ⟨-, hall⟩
            refine ⟨rfl, ?_⟩
            intro s hs
            rcases List.mem_cons.mp hs with rfl | hs
            · simpa using hm
            · exact hall s hs
          · rintro ⟨-, hall⟩
            exact ⟨rfl, fun s hs => hall s (List.mem_cons_of_mem _ hs)⟩
    | some c =>
        by_cases hm : (routeMatches dst a && decide (c.netmask < a.netmask)) = true
        · rw [lookupGo, if_pos hm, ih (some a)]
          simp
        · rw [lookupGo, if_neg hm, ih (some c)]
          simp

theorem lookupGo_no_match (dst : Nat) (l : List IpRoute) :
    ∀ cand, (∀ s ∈ l, routeMatches dst s = false) → lookupGo dst l cand = cand := by
  induction l with
  | nil => intro cand _; rfl
  | cons a rest ih =>
    intro cand hall
    have ha : routeMatches dst a = false := hall a (by simp)
    have hrest : ∀ s ∈ rest, routeMatches dst s = false :=
      fun s hs => hall s (by simp [hs])
    cases cand with
    | none => rw [lookupGo, if_neg (by simp [ha]), ih none hrest]
    | some c => rw [lookupGo, if_neg (by simp [ha]), ih (some c) hrest]

theorem lookupGo_some_spec (dst : Nat) (l : List IpRoute) :
    ∀ cand r, lookupGo dst l cand = some r →
      (cand = some r ∧ ∀ s ∈ l, routeMatches dst s = true → s.netmask ≤ r.netmask)
      ∨ (routeMatches dst r = true
         ∧ (∀ c, cand = some c → c.netmask < r.netmask)
         ∧ ∃ l1 l2, l = l1 ++ r :: l2
             ∧ (∀ s ∈ l1, routeMatches dst s = true → s.netmask < r.netmask)
             ∧ (∀ s ∈ l2, routeMatches dst s = true → s.netmask ≤ r.netmask)) := by
  induction l with
  | nil =>
    intro cand r h
    left
    exact ⟨h, by simp⟩
  | cons a rest ih =>
    intro cand r h
    cases cand with
    | none =>
        by_cases hm : routeMatches dst a
        · rw [lookupGo, if_pos hm] at h
          rcases ih (some a) r h with ⟨heq, hall⟩ | ⟨hrm, hclt, l1, l2, heq, h1, h2⟩
          · obtain rfl : a = r := by injection heq
            right
            exact ⟨hm, by simp, [], rest, rfl, by simp, hall⟩
          · right
            refine ⟨hrm, by simp, a :: l1, l2, by simp [heq], ?_, h2⟩
            intro s hs
            rcases List.mem_cons.mp hs with rfl | hs
            · intro _; exact hclt s rfl
            · exact h1 s hs
        · rw [lookupGo, if_neg hm] at h
          rcases ih none r h with ⟨heq, _⟩ | ⟨hrm, hclt, l1, l2, heq, h1, h2⟩
          · exact absurd heq (by simp)
          · right
            refine ⟨hrm, by simp, a :: l1, l2, by simp [heq], ?_, h2⟩
            intro s hs
            rcases List.mem_cons.mp hs with rfl | hs
            · intro hms; rw [hms] at hm; exact absurd rfl hm
            · exact h1 s hs
    | some c =>
        by_cases hm : (routeMatches dst a && decide (c.netmask < a.netmask)) = true
        · have hm' := hm
          rw [Bool.and_eq_true] at hm'
          obtain ⟨hma, hlt⟩ := hm'
          have hclt0 : c.netmask < a.netmask := of_decide_eq_true hlt
          rw [lookupGo, if_pos hm] at h
          rcases ih (some a) r h with ⟨heq, hall⟩ | ⟨hrm, hclt, l1, l2, heq, h1, h2⟩
          · obtain rfl : a = r := by injection heq
            right
            refine ⟨hma, ?_, [], rest, rfl, by simp, hall⟩
            intro c' hc'
            obtain rfl : c = c' := by injection hc'
            exact hclt0
          · have haltr : a.netmask < r.netmask := hclt a rfl
            right
            refine ⟨hrm, ?_, a :: l1, l2, by simp [heq], ?_, h2⟩
            · intro c' hc'
              obtain rfl : c = c' := by injection hc'
              omega
            · intro s hs
              rcases List.mem_cons.mp hs with rfl | hs
              · intro _; exact haltr
              · exact h1 s hs
        · rw [lookupGo, if_neg hm] at h
          have hca : routeMatches dst a = true → a.netmask ≤ c.netmask := by
            intro hma
            by_contra hgt
            exact hm (by simp [hma, Nat.lt_of_not_le hgt])
          rcases ih (some c) r h with ⟨heq, hall⟩ | ⟨hrm, hclt, l1, l2, heq, h1, h2⟩
          · obtain rfl : c = r := by injection heq
            left
            refine ⟨rfl, ?_⟩
            intro s hs
            rcases List.mem_cons.mp hs with rfl | hs
            · exact hca
            · exact hall s hs
          · have hcltr : c.netmask < r.netmask := hclt c rfl
            right
            refine ⟨hrm, ?_, a :: l1, l2, by simp [heq], ?_, h2⟩
            · intro c' hc'
              obtain rfl : c = c' := by injection hc'
              exact hcltr
            · intro s hs
              rcases List.mem_cons.mp hs with rfl | hs
              · intro hms; exact Nat.lt_of_le_of_lt (hca hms) hcltr
              · exact h1 s hs

/-- C6: `lookup` returns `None` exactly when no route matches
`dst & netmask == network`; a returned route matches, carries the
numerically largest netmask among all matching routes, and every
matching route listed before it is strictly shorter (first wins among
equal prefixes); a returned netmask-0 route means no route with a
positive mask matched, and with an all-zero default route at the head,
the default is returned whenever nothing else matches. -/
theorem lookup_longest_match (routes : List IpRoute) (dst : Nat) :
    (Ipv4Router.lookup routes dst = none ↔
      ∀ r ∈ routes, routeMatches dst r = false) ∧
    (∀ r, Ipv4Router.lookup routes dst = some r →
      routeMatches dst r = true ∧
      (∀ s ∈ routes, routeMatches dst s = true → s.netmask ≤ r.netmask) ∧
      ∃ l1 l2, routes = l1 ++ r :: l2 ∧
        ∀ s ∈ l1, routeMatches dst s = true → s.netmask < r.netmask) ∧
    (∀ r, Ipv4Router.lookup routes dst = some r → r.netmask = 0 →
      ∀ s ∈ routes, 0 < s.netmask → routeMatches dst s = false) ∧
    (∀ d rest, routes = d :: rest → d.network = Ipv4Address_ANY →
      d.netmask = Ipv4Address_ANY →
      (∀ s ∈ rest, routeMatches dst s = false) →
      Ipv4Router.lookup routes dst = some d) := by
  have hmain : ∀ r, Ipv4Router.lookup routes dst = some r →
      routeMatches dst r = true ∧
      (∀ s ∈ routes, routeMatches dst s = true → s.netmask ≤ r.netmask) ∧
      ∃ l1 l2, routes = l1 ++ r :: l2 ∧
        ∀ s ∈ l1, routeMatches dst s = true → s.netmask < r.netmask := by
    intro r h
    rcases lookupGo_some_spec dst routes none r h with ⟨heq, _⟩ |
      ⟨hrm, -, l1, l2, heq, h1, h2⟩
    · exact absurd heq (by simp)
    · refine ⟨hrm, ?_, l1, l2, heq, h1⟩
      intro s hs hms
      rw [heq] at hs
      rcases List.mem_append.mp hs with hs | hs
      · exact Nat.le_of_lt (h1 s hs hms)
      · rcases List.mem_cons.mp hs with rfl | hs
        · exact Nat.le_refl _
        · exact h2 s hs hms
  refine ⟨?_, hmain, ?_, ?_⟩
  · exact (lookupGo_eq_none dst routes none).trans (by simp)
  · intro r h hz s hs hpos
    by_contra hms
    have := (hmain r h).2.1 s hs (by simpa using hms)
    omega
  · rintro d rest rfl hnet hmask hnone
    have hmd : routeMatches dst d = true := by
      simp [routeMatches, hnet, hmask, Ipv4Address_ANY]
    show lookupGo dst (d :: rest) none = some d
    rw [lookupGo, if_pos hmd, lookupGo_no_match dst rest (some d) hnone]

/-- Sample interfaces and route table exercising longest-prefix match
(the `/8` + `/16` pair of spec §8.3). -/
def ifaceA : Ipv4Interface := Ipv4Interface.new 0xC0000001 0xFF000000 nullDevice

def ifaceB : Ipv4Interface := Ipv4Interface.new 0xC0000101 0xFFFF0000 nullDevice

def sampleRoutes : List IpRoute :=
  Ipv4Router.register (Ipv4Router.register [] 0xC0000000 ifaceA) 0xC0000000 ifaceB

theorem lookup_longest_match_witness :
    routeMatches 0xC0000102 (⟨0xC0000000, 0xFFFF0000, ifaceB, none⟩ : IpRoute) = true ∧
    (∀ s ∈ sampleRoutes, routeMatches 0xC0000102 s = true →
      s.netmask ≤ (⟨0xC0000000, 0xFFFF0000, ifaceB, none⟩ : IpRoute).netmask) ∧
    ∃ l1 l2, sampleRoutes =
        l1 ++ (⟨0xC0000000, 0xFFFF0000, ifaceB, none⟩ : IpRoute) :: l2 ∧
      ∀ s ∈ l1, routeMatches 0xC0000102 s = true →
        s.netmask < (⟨0xC0000000, 0xFFFF0000, ifaceB, none⟩ : IpRoute).netmask :=
  (lookup_longest_match sampleRoutes 0xC0000102).2.1
    ⟨0xC0000000, 0xFFFF0000, ifaceB, none⟩ (by decide)

/-! ### C7 — IPv4 header validation -/

/-- Serialising a parsed 20-byte header reproduces the input bytes. -/
theorem parse_to_bytes (v : List Nat) (h20 : v.length = 20)
    (hb : ∀ b ∈ v, b < 256) (hdr : Ipv4Header)
    (hp : Ipv4Header.parse v = some hdr) : hdr.to_bytes = v := by
  rcases v with _ | ⟨b0, v⟩; · simp at h20
  rcases v with _ | ⟨b1, v⟩; · simp at h20
  rcases v with _ | ⟨b2, v⟩; · simp at h20
  rcases v with _ | ⟨b3, v⟩; · simp at h20
  rcases v with _ | ⟨b4, v⟩; · simp at h20
  rcases v with _ | ⟨b5, v⟩; · simp at h20
  rcases v with _ | ⟨b6, v⟩; · simp at h20
  rcases v with _ | ⟨b7, v⟩; · simp at h20
  rcases v with _ | ⟨b8, v⟩; · simp at h20
  rcases v with _ | ⟨b9, v⟩; · simp at h20
  rcases v with _ | ⟨b10, v⟩; · simp at h20
  rcases v with _ | ⟨b11, v⟩; · simp at h20
  rcases v with _ | ⟨b12, v⟩; · simp at h20
  rcases v with _ | ⟨b13, v⟩; · simp at h20
  rcases v with _ | ⟨b14, v⟩; · simp at h20
  rcases v with _ | ⟨b15, v⟩; · simp at h20
  rcases v with _ | ⟨b16, v⟩; · simp at h20
  rcases v with _ | ⟨b17, v⟩; · simp at h20
  rcases v with _ | ⟨b18, v⟩; · simp at h20
  rcases v with _ | ⟨b19, v⟩; · simp at h20
  rcases v with _ | ⟨b20, v⟩
  swap; · simp at h20
  simp only [Ipv4Header.parse] at hp
  rcases htf : TransportProtocolNumber.tryFrom b9 with _ | p
  · rw [htf] at hp; simp at hp
  · rw [htf] at hp
    simp only [Option.map_some', Option.some.injEq] at hp
    subst hp
    have hb0 : b0 < 256 := hb b0 (by simp)
    have hb1 : b1 < 256 := hb b1 (by simp)
    have hb2 : b2 < 256 := hb b2 (by simp)
    have hb3 : b3 < 256 := hb b3 (by simp)
    have hb4 : b4 < 256 := hb b4 (by simp)
    have hb5 : b5 < 256 := hb b5 (by simp)
    have hb6 : b6 < 256 := hb b6 (by simp)
    have hb7 : b7 < 256 := hb b7 (by simp)
    have hb8 : b8 < 256 := hb b8 (by simp)
    have hb10 : b10 < 256 := hb b10 (by simp)
    have hb11 : b11 < 256 := hb b11 (by simp)
    have hb12 : b12 < 256 := hb b12 (by simp)
    have hb13 : b13 < 256 := hb b13 (by simp)
    have hb14 : b14 < 256 := hb b14 (by simp)
    have hb15 : b15 < 256 := hb b15 (by simp)
    have hb16 : b16 < 256 := hb b16 (by simp)
    have hb17 : b17 < 256 := hb b17 (by simp)
    have hb18 : b18 < 256 := hb b18 (by simp)
    have hb19 : b19 < 256 := hb b19 (by simp)
    have hproto : p.toNat = b9 := by
      unfold TransportProtocolNumber.tryFrom at htf
      split at htf
      · injection htf with h
        subst h
        simp_all [TransportProtocolNumber.toNat]
      · injection htf with h
        subst h
        simp_all [TransportProtocolNumber.toNat]
      · exact absurd htf (by simp)
    simp only [Ipv4Header.to_bytes, readU16, readU32, hproto, List.cons.injEq,
      and_true]
    and_intros
    all_goals
      try simp only [Nat.shiftRight_eq_div_pow, show (2 : Nat) ^ 8 = 256 from rfl,
        show (2 : Nat) ^ 16 = 65536 from rfl,
        show (2 : Nat) ^ 24 = 16777216 from rfl]
    all_goals omega

/-- C7: a parsed 20-byte header passes `validate` exactly when the
version is 4, the header length is in [20, 60) bytes, the MF flag
(bit 13 of the flags/fragment-offset field) is clear, the fragment
offset is 0, and the one's-complement checksum of the original header
bytes is 0; in particular MF=1 or a nonzero offset is rejected. -/
theorem validate_iff (v : List Nat) (hdr : Ipv4Header)
    (h20 : v.length = 20) (hb : ∀ b ∈ v, b < 256)
    (hp : Ipv4Header.parse v = some hdr) :
    hdr.validate = .ok () ↔
      (hdr.version = 4 ∧ 20 ≤ hdr.header_length ∧ hdr.header_length < 60 ∧
       hdr.flags_fragment_offset.testBit 13 = false ∧
       hdr.fragment_offset = 0 ∧ calculate_checksum v 0 = some 0) := by
  have hbytes : hdr.to_bytes = v := parse_to_bytes v h20 hb hdr hp
  have hflag : (hdr.flags &&& 0x1 = 0) ↔
      (hdr.flags_fragment_offset.testBit 13 = false) := by
    unfold Ipv4Header.flags
    rw [Nat.and_one_is_mod, Nat.mod_mod_of_dvd _ (by norm_num : (2 : Nat) ∣ 256),
      Nat.shiftRight_eq_div_pow, Nat.testBit_to_div_mod]
    simp only [decide_eq_false_iff_not]
    omega
  have hfrag : hdr.fragment_offset &&& 0x1fff = hdr.fragment_offset := by
    unfold Ipv4Header.fragment_offset
    rw [Nat.and_assoc, Nat.and_self]
  unfold Ipv4Header.validate
  rw [hbytes]
  split_ifs with h1 h2 h3 h4 h5
  · constructor
    · intro h; exact absurd h (by simp)
    · rintro ⟨h4v, -⟩; exact absurd h4v h1
  · constructor
    · intro h; exact absurd h (by simp)
    · rintro ⟨-, hle, -⟩; exact absurd hle (by omega)
  · constructor
    · intro h; exact absurd h (by simp)
    · rintro ⟨-, -, hlt, -⟩; exact absurd hlt (by omega)
  · constructor
    · intro h; exact absurd h (by simp)
    · rintro ⟨-, -, -, hbit, hfz, -⟩
      rcases h4 with hfl | hfr
      · have := hflag.mpr hbit
        omega
      · rw [hfrag, hfz] at hfr
        exact absurd hfr (by simp)
  · simp only [true_iff]
    push_neg at h4
    obtain ⟨hfl, hfr⟩ := h4
    refine ⟨not_ne_iff.mp h1, by omega, by omega, hflag.mp (by omega), ?_, h5⟩
    rw [hfrag] at hfr
    omega
  · constructor
    · intro h; exact absurd h (by simp)
    · rintro ⟨-, -, -, -, -, hck⟩; exact absurd hck h5

/-- The header bytes of scenario S2 in spec §8. -/
def s2bytes : List Nat :=
  [0x45, 0x00, 0x00, 0x30, 0x00, 0x80, 0x00, 0x00, 0xff, 0x01, 0xbd, 0x4a,
   0x7f, 0x00, 0x00, 0x01, 0x7f, 0x00, 0x00, 0x01]

theorem validate_iff_witness :
    (⟨0x45, 0, 48, 128, 0, 0xff, .icmp, 0xbd4a, 0x7f000001, 0x7f000001⟩ :
        Ipv4Header).validate = .ok () ↔
      ((⟨0x45, 0, 48, 128, 0, 0xff, .icmp, 0xbd4a, 0x7f000001, 0x7f000001⟩ :
          Ipv4Header).version = 4 ∧
       20 ≤ (⟨0x45, 0, 48, 128, 0, 0xff, .icmp, 0xbd4a, 0x7f000001,
          0x7f000001⟩ : Ipv4Header).header_length ∧
       (⟨0x45, 0, 48, 128, 0, 0xff, .icmp, 0xbd4a, 0x7f000001,
          0x7f000001⟩ : Ipv4Header).header_length < 60 ∧
       (0 : Nat).testBit 13 = false ∧
       (⟨0x45, 0, 48, 128, 0, 0xff, .icmp, 0xbd4a, 0x7f000001,
          0x7f000001⟩ : Ipv4Header).fragment_offset = 0 ∧
       calculate_checksum s2bytes 0 = some 0) :=
  validate_iff s2bytes
    ⟨0x45, 0, 48, 128, 0, 0xff, .icmp, 0xbd4a, 0x7f000001, 0x7f000001⟩
    rfl (by decide) rfl

/-! ### C8 — UDP bind collision rules -/

/-- Source `UdpContext::new()`: all 16 slots free. -/
def emptyPcbTable : List (Option UdpPcb) := List.replicate UDP_PCB_LENGTH none

/-- C8: from the empty table, `bind((ANY, P))` takes slot 0; a following
`bind((A, P))` fails for every `A` and leaves the table unchanged.
`bind((A2, P))` then `bind((A1, P))` with distinct non-ANY addresses both
succeed, taking the first free slots 0 and 1. -/
theorem bind_collision_rules (P A A1 A2 : Nat)
    (hA1 : A1 ≠ Ipv4Address_ANY) (hA2 : A2 ≠ Ipv4Address_ANY)
    (hne : A1 ≠ A2) :
    (udp.bind emptyPcbTable ⟨Ipv4Address_ANY, P⟩ =
       (some ⟨.Open, ⟨Ipv4Address_ANY, P⟩, []⟩ :: List.replicate 15 none,
        some 0) ∧
     udp.bind (some ⟨.Open, ⟨Ipv4Address_ANY, P⟩, []⟩ :: List.replicate 15 none)
         ⟨A, P⟩ =
       (some ⟨.Open, ⟨Ipv4Address_ANY, P⟩, []⟩ :: List.replicate 15 none,
        none)) ∧
    (udp.bind emptyPcbTable ⟨A2, P⟩ =
       (some ⟨.Open, ⟨A2, P⟩, []⟩ :: List.replicate 15 none, some 0) ∧
     udp.bind (some ⟨.Open, ⟨A2, P⟩, []⟩ :: List.replicate 15 none) ⟨A1, P⟩ =
       (some ⟨.Open, ⟨A2, P⟩, []⟩ :: some ⟨.Open, ⟨A1, P⟩, []⟩ ::
          List.replicate 14 none, some 1)) := by
  have e16 : List.replicate 16 (none : Option UdpPcb) =
      none :: none :: none :: none :: none :: none :: none :: none :: none ::
        none :: none :: none :: none :: none :: none :: none :: [] := rfl
  have e15 : List.replicate 15 (none : Option UdpPcb) =
      none :: none :: none :: none :: none :: none :: none :: none :: none ::
        none :: none :: none :: none :: none :: none :: [] := rfl
  have e14 : List.replicate 14 (none : Option UdpPcb) =
      none :: none :: none :: none :: none :: none :: none :: none :: none ::
        none :: none :: none :: none :: none :: [] := rfl
  have hA1' : ¬ A1 = 0 := by simpa [Ipv4Address_ANY] using hA1
  have hA2' : ¬ A2 = 0 := by simpa [Ipv4Address_ANY] using hA2
  refine ⟨⟨?_, ?_⟩, ?_, ?_⟩
  all_goals
    simp [udp.bind, udp.select_pcb, udp.bindGo, emptyPcbTable, UDP_PCB_LENGTH,
      UdpPcb.can_be_bound, Ipv4Address_ANY, hA1', hA2', hne, Ne.symm hne,
      e16, e15, e14]

theorem bind_collision_rules_witness :
    (udp.bind emptyPcbTable ⟨Ipv4Address_ANY, 8000⟩ =
       (some ⟨.Open, ⟨Ipv4Address_ANY, 8000⟩, []⟩ :: List.replicate 15 none,
        some 0) ∧
     udp.bind (some ⟨.Open, ⟨Ipv4Address_ANY, 8000⟩, []⟩ ::
         List.replicate 15 none) ⟨3, 8000⟩ =
       (some ⟨.Open, ⟨Ipv4Address_ANY, 8000⟩, []⟩ :: List.replicate 15 none,
        none)) ∧
    (udp.bind emptyPcbTable ⟨2, 8000⟩ =
       (some ⟨.Open, ⟨2, 8000⟩, []⟩ :: List.replicate 15 none, some 0) ∧
     udp.bind (some ⟨.Open, ⟨2, 8000⟩, []⟩ :: List.replicate 15 none)
         ⟨1, 8000⟩ =
       (some ⟨.Open, ⟨2, 8000⟩, []⟩ :: some ⟨.Open, ⟨1, 8000⟩, []⟩ ::
          List.replicate 14 none, some 1)) :=
  bind_collision_rules 8000 3 1 2 (by decide) (by decide) (by decide)

end Unet
